import Mathlib

/-!
Verification of the risos feed aggregator backend.

Shallow embedding of the services under backend/app/services: the Cerebras
LLM client (API key rotator, circuit breaker, response handling), the
summary-queue worker of the scheduler, the retention job, feed ingestion
with its deduplication logic, the URL normalizer, the HTML sanitizer, the
content hasher, and the user-profile generator.

Python conventions used throughout the embedding:
- Python datetimes are rationals (seconds); timedeltas are rational deltas.
- Optional values are Option; Python falsiness of strings and options is
  made explicit via pyTruthy helpers.
- Methods that the source reads on an object but that the class does not
  define are modelled through an explicit attribute-lookup table, so a
  Python AttributeError is visible as a lookup returning none.
-/

namespace Risos

/-- Python truthiness of an optional string: None and the empty string are
falsy. -/
def pyTruthyOptStr : Option String → Bool
  | none => false
  | some s => s ≠ ""

/-- Python truthiness of a string. -/
def pyTruthyStr (s : String) : Bool := s ≠ ""

/-- Python whitespace (ASCII view of the \s class and str.strip). -/
def isPySpace (c : Char) : Bool :=
  c = ' ' || c = '\t' || c = '\n' || c = '\x0d' || c = '\x0b' || c = '\x0c'

/-- Python str.strip(): drop whitespace from both ends. -/
def pyStrip (s : List Char) : List Char :=
  ((s.dropWhile isPySpace).reverse.dropWhile isPySpace).reverse

/-- Python str.strip() on a String. -/
def pyStripS (s : String) : String := String.mk (pyStrip s.data)

/-- Python str.lower() (ASCII view). -/
def strToLower (s : String) : String := String.mk (s.data.map Char.toLower)

/-- Python str.split(sep) for a one-character separator. -/
def splitOnChar (c : Char) (l : List Char) : List (List Char) :=
  l.foldr (fun x acc =>
    match acc with
    | h :: t => if x = c then [] :: h :: t else (x :: h) :: t
    | [] => [[x]]) [[]]

/-! ## Circuit breaker (backend/app/services/cerebras.py, class CircuitBreaker)

The breaker state is the set of instance attributes kept by the class
(state, failures, half_successes, last_failure, last_call); the database
persistence of that state is identity on the attributes and is therefore
not modelled separately.  All three operations additionally take the
current time as a parameter (datetime.utcnow() in the source). -/

/-- States of the circuit breaker (enum CircuitState). -/
inductive CircuitState where
  | closed
  | opened
  | half
  deriving DecidableEq, Repr

/-- The configuration knobs read by the breaker from settings
(config.py defaults: max_rpm 20, failure_threshold 5,
recovery_timeout_seconds 300, half_open_max_requests 3). -/
structure CerebrasSettings where
  cerebras_max_rpm : ℚ
  failure_threshold : Nat
  recovery_timeout_seconds : ℚ
  half_open_max_requests : Nat
  deriving DecidableEq, Repr

/-- The settings defaults from config.py. -/
def defaultSettings : CerebrasSettings :=
  { cerebras_max_rpm := 20
    failure_threshold := 5
    recovery_timeout_seconds := 300
    half_open_max_requests := 3 }

/-- Instance attributes of class CircuitBreaker. -/
structure CircuitBreaker where
  state : CircuitState
  failures : Nat
  half_successes : Nat
  last_failure : Option ℚ
  last_call : Option ℚ
  deriving DecidableEq, Repr

namespace CircuitBreaker

/-- The fresh state installed by _load_state when no rows exist. -/
def initial : CircuitBreaker :=
  { state := .closed
    failures := 0
    half_successes := 0
    last_failure := none
    last_call := none }

/-- CircuitBreaker.can_call: returns (allowed, reason-if-not) and may
transition OPEN to HALF; the updated attribute record is returned
alongside.  Mirrors the source line by line: the minimum-interval check
runs first, then the OPEN branch with its recovery-timeout test. -/
def can_call (cfg : CerebrasSettings) (now : ℚ) (b : CircuitBreaker) :
    Bool × CircuitBreaker :=
  let min_interval : ℚ := 60 / cfg.cerebras_max_rpm
  let interval_block : Bool :=
    match b.last_call with
    | some lc => decide (now - lc < min_interval)
    | none => false
  if interval_block then (false, b)
  else if b.state = .opened then
    match b.last_failure with
    | some lf =>
      if now - lf ≥ cfg.recovery_timeout_seconds then
        (true, { b with state := .half, half_successes := 0 })
      else
        (false, b)
    | none => (true, b)
  else (true, b)

/-- CircuitBreaker.record_success. -/
def record_success (cfg : CerebrasSettings) (now : ℚ) (b : CircuitBreaker) :
    CircuitBreaker :=
  let b := { b with last_call := some now }
  if b.state = .half then
    let hs := b.half_successes + 1
    if hs ≥ cfg.half_open_max_requests then
      { b with half_successes := hs, state := .closed, failures := 0 }
    else
      { b with half_successes := hs }
  else
    { b with failures := 0 }

/-- CircuitBreaker.record_failure. -/
def record_failure (cfg : CerebrasSettings) (now : ℚ) (b : CircuitBreaker) :
    CircuitBreaker :=
  let b := { b with last_call := some now, last_failure := some now }
  if b.state = .half then
    { b with state := .opened }
  else
    let f := b.failures + 1
    if f ≥ cfg.failure_threshold then
      { b with failures := f, state := .opened }
    else
      { b with failures := f }

/-- A sequence of record_failure calls at the given times. -/
def record_failures (cfg : CerebrasSettings) (times : List ℚ)
    (b : CircuitBreaker) : CircuitBreaker :=
  times.foldl (fun s t => record_failure cfg t s) b

/-- A sequence of record_success calls at the given times. -/
def record_successes (cfg : CerebrasSettings) (times : List ℚ)
    (b : CircuitBreaker) : CircuitBreaker :=
  times.foldl (fun s t => record_success cfg t s) b

end CircuitBreaker

/-! ## API key rotator (backend/app/services/cerebras.py, class ApiKeyRotator)

Instance state: the per-key cooldown dictionary and the round-robin index
(the database persistence of the index writes back exactly the in-memory
value, so _save_state is the identity on this record). -/

/-- Instance state of class ApiKeyRotator. -/
structure ApiKeyRotator where
  key_cooldowns : String → Option ℚ
  current_index : Nat

namespace ApiKeyRotator

/-- The loop body of get_next_key: one pass of at most keys.length
iterations, each advancing the round-robin index and skipping keys whose
cooldown lies in the future. -/
def get_next_key_loop (keys : List String) (now : ℚ) :
    Nat → ApiKeyRotator → (Option (String × Nat)) × ApiKeyRotator
  | 0, r => (none, r)
  | fuel + 1, r =>
    let key_index := r.current_index
    let key := keys.getD key_index ""
    let r1 := { r with current_index := (r.current_index + 1) % keys.length }
    match r1.key_cooldowns key with
    | some cooldown_until =>
      if now < cooldown_until then get_next_key_loop keys now fuel r1
      else (some (key, key_index), r1)
    | none => (some (key, key_index), r1)

/-- ApiKeyRotator.get_next_key: returns (key, index) or (None, None), and
the updated rotator (index advanced past the returned key). -/
def get_next_key (keys : List String) (now : ℚ) (r : ApiKeyRotator) :
    (Option (String × Nat)) × ApiKeyRotator :=
  if keys.isEmpty then (none, r)
  else get_next_key_loop keys now keys.length r

/-- ApiKeyRotator.set_key_cooldown: cooldowns[key] = utcnow() + seconds. -/
def set_key_cooldown (now : ℚ) (key : String) (seconds : ℚ)
    (r : ApiKeyRotator) : ApiKeyRotator :=
  { r with
    key_cooldowns := fun k =>
      if k = key then some (now + seconds) else r.key_cooldowns k }

/-- ApiKeyRotator.clear_cooldown: cooldowns.pop(key, None). -/
def clear_cooldown (key : String) (r : ApiKeyRotator) : ApiKeyRotator :=
  { r with
    key_cooldowns := fun k =>
      if k = key then none else r.key_cooldowns k }

end ApiKeyRotator

/-- All attributes an ApiKeyRotator instance carries: the instance
attributes assigned in __init__ and the methods defined by the class body.
Looking up any other name on the instance raises AttributeError. -/
def apiKeyRotatorAttrs : List String :=
  ["_lock", "_key_cooldowns", "_current_index", "__init__",
   "_load_state", "_save_state", "get_next_key", "set_key_cooldown",
   "clear_cooldown", "get_status"]

/-! ## SummaryResult (backend/app/services/cerebras.py, dataclass) -/

/-- The SummaryResult dataclass: exactly the three declared fields.
translated_title defaults to None, hence Option. -/
structure SummaryResult where
  summary_pt : String
  one_line_summary : String
  translated_title : Option String
  deriving DecidableEq, Repr

/-- A Python value as stored in a SummaryResult field. -/
inductive PyVal where
  | str (s : String)
  | noneV
  deriving DecidableEq, Repr

/-- Python attribute lookup on a SummaryResult instance: only the three
dataclass fields exist; any other name raises AttributeError (none). -/
def SummaryResult.getattr (r : SummaryResult) : String → Option PyVal
  | "summary_pt" => some (.str r.summary_pt)
  | "one_line_summary" => some (.str r.one_line_summary)
  | "translated_title" =>
    some (match r.translated_title with
          | some t => .str t
          | none => .noneV)
  | _ => none

/-! ## generate_summary response handling (cerebras.py lines 618-730)

The HTTP round trip is abstracted by its observable outcome: the status
code and, for a 2xx answer, the extraction outcome of the response body
(choices present, a content field found, and the result of
_parse_json_response on it).  The JSON parse itself is a pure function of
the body and does not touch the breaker or the rotator, so its outcome is
an input here. -/

/-- The result of the error outcome of generate_summary. -/
inductive CerebrasOutcome where
  | ok (r : SummaryResult)
  | temporary (msg : String)
  | permanent (msg : String)
  deriving DecidableEq, Repr

/-- Fields extracted by _parse_json_response from a 2xx body. -/
structure ParsedSummaryDict where
  summary_pt : Option String
  one_line_summary : Option String
  translated_title : Option String
  deriving DecidableEq, Repr

/-- The shape of a 2xx response body as the handler sees it. -/
inductive LlmBody where
  /-- "choices" missing or empty (line 653). -/
  | noChoices
  /-- no content, reasoning or text field found (line 679). -/
  | unknownStructure
  /-- a content string was found; the field holds the outcome of
  _parse_json_response on it (none = the parse raised). -/
  | content (parse : Option ParsedSummaryDict)

/-- Cleaning of translated_title (cerebras.py lines 694-697). -/
def clean_translated_title : Option String → Option String
  | none => none
  | some t =>
    if pyTruthyStr t then
      let t := pyStripS t
      if strToLower t = "null" ∨ strToLower t = "none" ∨ strToLower t = ""
      then none
      else some t
    else some t

/-- Response dispatch of generate_summary (lines 628-722): 429 puts the
used key in a 60 s cooldown and raises TemporaryError without touching the
breaker; 5xx and 4xx record a circuit failure; a 2xx body goes through
field extraction, the both-empty-or-both-filled consistency check and the
150-char cap on the one-line summary, recording circuit success or
failure. -/
def handle_response (cfg : CerebrasSettings) (now : ℚ) (api_key : String)
    (b : CircuitBreaker) (rot : ApiKeyRotator) (status : Nat)
    (body : LlmBody) : CerebrasOutcome × CircuitBreaker × ApiKeyRotator :=
  if status = 429 then
    (.temporary "Rate limit reached", b,
     ApiKeyRotator.set_key_cooldown now api_key 60 rot)
  else if status ≥ 500 then
    (.temporary "Server error", CircuitBreaker.record_failure cfg now b, rot)
  else if status ≥ 400 then
    (.permanent "Request error", CircuitBreaker.record_failure cfg now b, rot)
  else
    match body with
    | .noChoices =>
      (.permanent "Empty API response",
       CircuitBreaker.record_failure cfg now b, rot)
    | .unknownStructure =>
      (.permanent "Unknown response structure",
       CircuitBreaker.record_failure cfg now b, rot)
    | .content parse =>
      match parse with
      | none =>
        (.permanent "Invalid response",
         CircuitBreaker.record_failure cfg now b, rot)
      | some d =>
        let summary_pt := pyStripS (d.summary_pt.getD "")
        let one_line := pyStripS (d.one_line_summary.getD "")
        let translated_title := clean_translated_title d.translated_title
        if pyTruthyStr summary_pt ≠ pyTruthyStr one_line then
          (.permanent "Invalid response: inconsistent fields",
           CircuitBreaker.record_failure cfg now b, rot)
        else
          let one_line :=
            if one_line.length > 150 then
              String.mk (one_line.data.take 147) ++ "..."
            else one_line
          (.ok { summary_pt := summary_pt, one_line_summary := one_line,
                 translated_title := translated_title },
           CircuitBreaker.record_success cfg now b, rot)

/-! ## Summary worker (scheduler.py, _job_process_summaries)

Two pieces are modelled: the tick prelude (circuit check, then the
key-availability check at line 574), and the success branch after a
generate_summary call returns (lines 709-727 with the enclosing
try/except at line 789). -/

/-- How a worker tick begins, before any queue access. -/
inductive TickStart where
  /-- circuit breaker denied: log, sleep(interval), next iteration
  (lines 566-570); no queue entry is claimed. -/
  | sleepCircuitDenied
  /-- line 574 found the has_available_key attribute and the availability
  check would run (dead in this code base: no such attribute exists). -/
  | availabilityCheck
  /-- attribute lookup at line 574 raised AttributeError; the exception is
  caught by the handler at line 797, logged, and the loop sleeps; no queue
  entry is claimed. -/
  | exceptionLoggedSleep (attr : String)
  deriving DecidableEq, Repr

/-- The prelude of one tick of _job_process_summaries (lines 563-577). -/
def worker_tick_start (cfg : CerebrasSettings) (now : ℚ)
    (b : CircuitBreaker) : TickStart × CircuitBreaker :=
  match CircuitBreaker.can_call cfg now b with
  | (false, b1) => (.sleepCircuitDenied, b1)
  | (true, b1) =>
    if "has_available_key" ∈ apiKeyRotatorAttrs then
      (.availabilityCheck, b1)
    else
      (.exceptionLoggedSleep "has_available_key", b1)

/-- A row of ai_summaries. -/
structure AISummaryRow where
  content_hash : String
  summary_pt : String
  one_line_summary : String
  translated_title : Option String
  deriving DecidableEq, Repr

/-- A row of summary_queue. -/
structure QueueEntry where
  id : Nat
  post_id : Nat
  content_hash : String
  priority : Int
  attempts : Nat
  locked_at : Option ℚ
  cooldown_until : Option ℚ
  created_at : ℚ
  deriving DecidableEq, Repr

/-- A row of post_tags. -/
structure PostTagRow where
  post_id : Nat
  tag : String
  deriving DecidableEq, Repr

/-- The tables touched by the worker success branch. -/
structure WorkerDb where
  ai_summaries : List AISummaryRow
  post_tags : List PostTagRow
  queue : List QueueEntry
  deriving DecidableEq, Repr

/-- save_post_tags (backend/app/services/tags.py): delete the post's rows,
then insert the lowercased, trimmed, deduplicated, length-bounded tags.
Returns the updated tables and the count. -/
def save_post_tags (db : WorkerDb) (post_id : Nat) (tags : List String) :
    WorkerDb × Nat :=
  if tags.isEmpty then (db, 0)
  else
    let db :=
      { db with post_tags := db.post_tags.filter (fun r => r.post_id ≠ post_id) }
    let step := fun (acc : WorkerDb × List String × Nat) (tag : String) =>
      let (db, seen, count) := acc
      let tag := pyStripS (strToLower tag)
      if tag ≠ "" ∧ tag ∉ seen ∧ tag.length ≤ 50 then
        ({ db with post_tags := db.post_tags ++ [⟨post_id, tag⟩] },
         tag :: seen, count + 1)
      else (db, seen, count)
    let (db, _, count) := tags.foldl step (db, [], 0)
    (db, count)

/-- Outcome of the worker success branch. -/
inductive SuccessOutcome where
  /-- the branch ran to db.commit() (line 727). -/
  | committed (db : WorkerDb)
  /-- an AttributeError escaped, was caught at line 789 and the
  transaction was rolled back to the last committed state. -/
  | attrErrorRolledBack (db : WorkerDb)
  deriving DecidableEq, Repr

/-- Truthiness of a SummaryResult field value. -/
def pyTruthyVal : PyVal → Bool
  | .str s => s ≠ ""
  | .noneV => false

/-- The worker success branch (scheduler.py lines 709-727): stage the
AISummary insert, read summary_result.tags, save tags when truthy, delete
the queue entry, commit.  The attribute read uses Python lookup on the
dataclass; a failed lookup raises and the enclosing handler at line 789
rolls the transaction back, discarding the staged insert. -/
def process_summary_success (db0 : WorkerDb) (candidate : QueueEntry)
    (post_id : Nat) (r : SummaryResult) : SuccessOutcome :=
  let db1 :=
    { db0 with
      ai_summaries := db0.ai_summaries ++
        [⟨candidate.content_hash, r.summary_pt, r.one_line_summary,
          r.translated_title⟩] }
  match r.getattr "tags" with
  | none => .attrErrorRolledBack db0
  | some v =>
    let db2 :=
      if pyTruthyVal v then
        (save_post_tags db1 post_id
          (match v with | .str s => [s] | .noneV => [])).1
      else db1
    let db3 := { db2 with queue := db2.queue.filter (fun q => q.id ≠ candidate.id) }
    .committed db3

/-! ## Retention job (scheduler.py, _job_cleanup_retention lines 384-434)

One pass over the posts table: the two deletes and the full_content
update, each with the not-starred condition
(is_starred == False) OR (is_starred IS NULL).  SQL three-valued logic for
nullable timestamp comparisons: NULL < cutoff does not match. -/

/-- Retention knobs (config.py defaults: 365 and 90 days). -/
structure RetentionSettings where
  max_post_age_days : ℚ
  max_unread_days : ℚ
  deriving DecidableEq, Repr

/-- The post columns the cleanup pass reads or writes. -/
structure PostRow where
  id : Nat
  is_read : Bool
  read_at : Option ℚ
  fetched_at : Option ℚ
  is_starred : Option Bool
  full_content : Option String
  deriving DecidableEq, Repr

/-- (Post.is_starred == False) | (Post.is_starred.is_(None)). -/
def notStarredCond (p : PostRow) : Bool :=
  p.is_starred = some false ∨ p.is_starred = none

/-- SQL comparison column < cutoff on a nullable column: NULL never
matches. -/
def sqlLt (t : Option ℚ) (cutoff : ℚ) : Bool :=
  match t with
  | some v => decide (v < cutoff)
  | none => false

/-- The three statements of the cleanup pass, in source order. -/
def cleanup_retention (cfg : RetentionSettings) (now : ℚ)
    (posts : List PostRow) : List PostRow :=
  let cutoff_read := now - cfg.max_post_age_days * 86400
  let posts := posts.filter
    (fun p => ¬(p.is_read ∧ sqlLt p.read_at cutoff_read ∧ notStarredCond p))
  let cutoff_unread := now - cfg.max_unread_days * 86400
  let posts := posts.filter
    (fun p => ¬(¬p.is_read ∧ sqlLt p.fetched_at cutoff_unread ∧ notStarredCond p))
  let cutoff_full := now - 30 * 86400
  posts.map
    (fun p =>
      if p.is_read ∧ sqlLt p.read_at cutoff_full ∧ p.full_content.isSome ∧
          notStarredCond p then
        { p with full_content := none }
      else p)

/-! ## A small backtracking regex interpreter

Used to embed the re.sub calls of content_hasher.py and
html_sanitizer.py.  Alternation tries the left branch first and greedy
quantifiers try longer matches first, matching the backtracking order of
the Python re module; quantifiers carry explicit iteration bounds (callers
pass the input length for the unbounded ones, which is always enough). -/

/-- Regex AST.  rep r lo hi greedy repeats r between lo and hi times. -/
inductive Re where
  | eps
  | cls (p : Char → Bool)
  | seq (a b : Re)
  | alt (a b : Re)
  | rep (r : Re) (lo hi : Nat) (greedy : Bool)
  | wordB

/-- Python word characters (ASCII view). -/
def isWordChar (c : Char) : Bool := c.isAlphanum || c = '_'

/-- Whether a word boundary sits between the previous character and the
head of the remaining input. -/
def atWordBoundary (prev : Option Char) (s : List Char) : Bool :=
  let before := match prev with | some c => isWordChar c | none => false
  let after := match s with | c :: _ => isWordChar c | [] => false
  before ≠ after

/-- An upper bound on the call depth of the backtracking matcher for a
pattern: recursion below is structural on this fuel, which keeps the
interpreter kernel-reducible; the bound dominates pattern nesting plus
one level per quantifier unrolling. -/
def Re.depthBound : Re → Nat
  | .eps => 1
  | .cls _ => 1
  | .wordB => 1
  | .seq a b => a.depthBound + b.depthBound + 1
  | .alt a b => a.depthBound + b.depthBound + 1
  | .rep r _ hi _ => (hi + 1) * (r.depthBound + 1) + 1

/-- Backtracking matcher in continuation style: k receives the remaining
input and the new previous character; the first success in backtracking
order wins.  Alternation tries left first; greedy repetition tries the
longer continuation first. -/
def Re.run (fuel : Nat) (r : Re) (s : List Char) (prev : Option Char)
    (k : List Char → Option Char → Option (List Char)) :
    Option (List Char) :=
  match fuel with
  | 0 => none
  | fuel + 1 =>
    match r with
    | .eps => k s prev
    | .cls p =>
      match s with
      | [] => none
      | c :: rest => if p c then k rest (some c) else none
    | .seq a b => Re.run fuel a s prev (fun s1 p1 => Re.run fuel b s1 p1 k)
    | .alt a b =>
      (Re.run fuel a s prev k).orElse (fun _ => Re.run fuel b s prev k)
    | .wordB => if atWordBoundary prev s then k s prev else none
    | .rep r lo hi greedy =>
      match hi with
      | 0 => if lo = 0 then k s prev else none
      | hi + 1 =>
        let more := fun _ : Unit =>
          Re.run fuel r s prev (fun s1 p1 =>
            Re.run fuel (.rep r (lo - 1) hi greedy) s1 p1 k)
        let exit := fun _ : Unit => if lo = 0 then k s prev else none
        if greedy then (more ()).orElse exit else (exit ()).orElse more

/-- Length of the first match of r at the start of s, if any. -/
def Re.matchHere (r : Re) (s : List Char) (prev : Option Char) :
    Option Nat :=
  (Re.run (r.depthBound + 1) r s prev (fun rest _ => some rest)).map
    (fun rest => s.length - rest.length)

/-- re.sub scanning loop: replace non-overlapping matches left to right;
the fuel is the input length, enough since every step consumes at least
one character. -/
def pySubGo (r : Re) (repl : List Char → List Char) :
    Nat → List Char → Option Char → List Char
  | 0, s, _ => s
  | _ + 1, [], _ => []
  | fuel + 1, c :: rest, prev =>
    match r.matchHere (c :: rest) prev with
    | some (n + 1) =>
      let matched := (c :: rest).take (n + 1)
      repl matched ++
        pySubGo r repl fuel ((c :: rest).drop (n + 1)) matched.getLast?
    | _ => c :: pySubGo r repl fuel rest (some c)

/-- re.sub over a string with a constant or computed replacement. -/
def pySub (r : Re) (repl : List Char → List Char) (s : List Char) :
    List Char :=
  pySubGo r repl (s.length + 1) s none

/-- Literal character (case sensitive). -/
def rchar (c : Char) : Re := .cls (fun x => x = c)

/-- Literal character under re.IGNORECASE. -/
def rcharCI (c : Char) : Re := .cls (fun x => x.toLower = c.toLower)

/-- Literal word (case sensitive). -/
def rstr (w : String) : Re :=
  w.data.foldr (fun c acc => .seq (rchar c) acc) .eps

/-- Literal word under re.IGNORECASE. -/
def rstrCI (w : String) : Re :=
  w.data.foldr (fun c acc => .seq (rcharCI c) acc) .eps

/-- Alternation of a list of branches, left to right. -/
def ralts : List Re → Re
  | [] => .eps
  | [r] => r
  | r :: rest => .alt r (ralts rest)

/-- The \d class. -/
def rdigit : Re := .cls Char.isDigit

/-- The \s class. -/
def rspace : Re := .cls isPySpace

/-- Sequence of a list of pieces. -/
def rseqs (l : List Re) : Re := l.foldr .seq .eps

/-! ## Content hasher (backend/app/services/content_hasher.py) -/

/-- Boilerplate pattern 1: dates, with n bounding unbounded repetition. -/
def reDate : Re :=
  let sep := Re.cls (fun c => c = '/' || c = '.' || c = '-')
  rseqs [.wordB, .rep rdigit 1 2 true, sep, .rep rdigit 1 2 true, sep,
         .rep rdigit 2 4 true, .wordB]

/-- Boilerplate pattern 2: clock times with optional seconds and
optional am/pm. -/
def reTime (n : Nat) : Re :=
  rseqs [.wordB, .rep rdigit 1 2 true, rchar ':', .rep rdigit 2 2 true,
         .rep (.seq (rchar ':') (.rep rdigit 2 2 true)) 0 1 true,
         .rep rspace 0 n true,
         .rep (ralts [rstrCI "AM", rstrCI "PM", rstrCI "am", rstrCI "pm"])
           0 1 true,
         .wordB]

/-- Boilerplate pattern 3: read more / continue reading phrases. -/
def reReadMore (n : Nat) : Re :=
  rseqs [.wordB,
         ralts [rstrCI "leia", rstrCI "read", rstrCI "continue",
                rstrCI "ver", rstrCI "see"],
         .rep rspace 1 n true,
         ralts [rstrCI "mais", rstrCI "more", rstrCI "reading",
                rstrCI "lendo"],
         .wordB]

/-- Boilerplate pattern 4: click here phrases. -/
def reClickHere (n : Nat) : Re :=
  rseqs [.wordB, ralts [rstrCI "clique", rstrCI "click"],
         .rep rspace 1 n true,
         ralts [rstrCI "aqui", rstrCI "here"], .wordB]

/-- Boilerplate pattern 5: sharing words. -/
def reShare : Re :=
  rseqs [.wordB,
         ralts [rstrCI "share",
                .seq (rstrCI "compartilh")
                  (.cls (fun c => c.toLower = 'a' || c.toLower = 'e')),
                rstrCI "tweet", rstrCI "retweet"],
         .wordB]

/-- Boilerplate pattern 6: newsletter / subscription words. -/
def reNewsletter : Re :=
  rseqs [.wordB,
         ralts [rstrCI "newsletter", rstrCI "subscribe",
                rstrCI "inscreva-se", rstrCI "cadastre-se"],
         .wordB]

/-- The BOILERPLATE_PATTERNS list, in source order. -/
def boilerplatePatterns (n : Nat) : List Re :=
  [reDate, reTime n, reReadMore n, reClickHere n, reShare, reNewsletter]

/-- re.sub(r"\s+", " ", text): collapse every maximal whitespace run to a
single space (structural form: a whitespace character melts into a
following collapsed run). -/
def collapseWs : List Char → List Char
  | [] => []
  | c :: rest =>
    let tail := collapseWs rest
    if isPySpace c then
      match tail with
      | ' ' :: _ => tail
      | _ => ' ' :: tail
    else c :: tail

/-- normalize_for_hash: lowercase, remove each boilerplate pattern in
order, collapse whitespace, strip. -/
def normalize_for_hash (text : String) : String :=
  if text = "" then ""
  else
    let chars := text.data.map Char.toLower
    let chars :=
      (boilerplatePatterns chars.length).foldl
        (fun acc pat => pySub pat (fun _ => []) acc) chars
    String.mk (pyStrip (collapseWs chars))

/-! ### SHA-256 over byte lists (hashlib.sha256(...).hexdigest())

Words are Nat reduced mod 2^32; never evaluated by any theorem below,
present so that compute_content_hash is the full function from the
source. -/

/-- Reduce to a 32-bit word. -/
def w32 (n : Nat) : Nat := n % 4294967296

/-- Right rotation of a 32-bit word. -/
def rotr32 (n x : Nat) : Nat := w32 ((x >>> n) + (x <<< (32 - n)))

/-- The 64 SHA-256 round constants. -/
def sha256K : List Nat :=
  [1116352408, 1899447441, 3049323471, 3921009573, 961987163, 1508970993,
   2453635748, 2870763221, 3624381080, 310598401, 607225278, 1426881987,
   1925078388, 2162078206, 2614888103, 3248222580, 3835390401, 4022224774,
   264347078, 604807628, 770255983, 1249150122, 1555081692, 1996064986,
   2554220882, 2821834349, 2952996808, 3210313671, 3336571891, 3584528711,
   113926993, 338241895, 666307205, 773529912, 1294757372, 1396182291,
   1695183700, 1986661051, 2177026350, 2456956037, 2730485921, 2820302411,
   3259730800, 3345764771, 3516065817, 3600352804, 4094571909, 275423344,
   430227734, 506948616, 659060556, 883997877, 958139571, 1322822218,
   1537002063, 1747873779, 1955562222, 2024104815, 2227730452, 2361852424,
   2428436474, 2756734187, 3204031479, 3329325298]

/-- The initial SHA-256 hash state. -/
def sha256H0 : List Nat :=
  [1779033703, 3144134277, 1013904242, 2773480762,
   1359893119, 2600822924, 528734635, 1541459225]

/-- Pad a byte message to a multiple of 64 bytes. -/
def sha256Pad (msg : List Nat) : List Nat :=
  let bitLen := msg.length * 8
  let zeros := (64 + 56 - (msg.length + 1) % 64) % 64
  msg ++ [0x80] ++ List.replicate zeros 0 ++
    (List.range 8).map (fun i => (bitLen >>> ((7 - i) * 8)) % 256)

/-- Split a list into 64-byte blocks. -/
def chunks64Go : Nat → List Nat → List (List Nat)
  | 0, _ => []
  | _ + 1, [] => []
  | fuel + 1, l => l.take 64 :: chunks64Go fuel (l.drop 64)

/-- Split a byte list into 64-byte blocks. -/
def chunks64 (l : List Nat) : List (List Nat) :=
  chunks64Go (l.length + 1) l

/-- Combine 4 bytes into a big-endian word. -/
def beWord (block : List Nat) (i : Nat) : Nat :=
  block.getD (4 * i) 0 * 16777216 + block.getD (4 * i + 1) 0 * 65536 +
    block.getD (4 * i + 2) 0 * 256 + block.getD (4 * i + 3) 0

/-- Message-schedule extension: grow the 16 initial words to 64. -/
def sha256Extend : Nat → List Nat → List Nat
  | 0, ws => ws
  | k + 1, ws =>
    let n := ws.length
    let w2 := ws.getD (n - 2) 0
    let w7 := ws.getD (n - 7) 0
    let w15 := ws.getD (n - 15) 0
    let w16 := ws.getD (n - 16) 0
    let s0 := (rotr32 7 w15) ^^^ (rotr32 18 w15) ^^^ (w15 >>> 3)
    let s1 := (rotr32 17 w2) ^^^ (rotr32 19 w2) ^^^ (w2 >>> 10)
    sha256Extend k (ws ++ [w32 (w16 + s0 + w7 + s1)])

/-- One compression round. -/
def sha256Round (st : List Nat) (kw : Nat × Nat) : List Nat :=
  match st with
  | [a, b, c, d, e, f, g, h] =>
    let s1 := (rotr32 6 e) ^^^ (rotr32 11 e) ^^^ (rotr32 25 e)
    let ch := (e &&& f) ^^^ ((4294967295 - e) &&& g)
    let temp1 := w32 (h + s1 + ch + kw.1 + kw.2)
    let s0 := (rotr32 2 a) ^^^ (rotr32 13 a) ^^^ (rotr32 22 a)
    let maj := (a &&& b) ^^^ (a &&& c) ^^^ (b &&& c)
    let temp2 := w32 (s0 + maj)
    [w32 (temp1 + temp2), a, b, c, w32 (d + temp1), e, f, g]
  | st => st

/-- Compress one 64-byte block into the running hash. -/
def sha256Block (hs : List Nat) (block : List Nat) : List Nat :=
  let ws := sha256Extend 48 ((List.range 16).map (beWord block))
  let final := (sha256K.zip ws).foldl sha256Round hs
  (hs.zip final).map (fun p => w32 (p.1 + p.2))

/-- Lowercase hex digit. -/
def hexDigit (n : Nat) : Char :=
  "0123456789abcdef".data.getD n '0'

/-- A word as 8 lowercase hex digits. -/
def toHex8 (x : Nat) : List Char :=
  (List.range 8).map (fun i => hexDigit ((x >>> ((7 - i) * 4)) % 16))

/-- SHA-256 hexdigest of a byte list. -/
def sha256_hex (msg : List Nat) : String :=
  let hs := (chunks64 (sha256Pad msg)).foldl sha256Block sha256H0
  String.mk ((hs.map toHex8).foldr (· ++ ·) [])

/-- UTF-8 encoding of one character (str.encode("utf-8")). -/
def utf8EncodeChar (c : Char) : List Nat :=
  let n := c.toNat
  if n < 0x80 then [n]
  else if n < 0x800 then
    [0xC0 + (n >>> 6), 0x80 + (n % 64)]
  else if n < 0x10000 then
    [0xE0 + (n >>> 12), 0x80 + ((n >>> 6) % 64), 0x80 + (n % 64)]
  else
    [0xF0 + (n >>> 18), 0x80 + ((n >>> 12) % 64), 0x80 + ((n >>> 6) % 64),
     0x80 + (n % 64)]

/-- UTF-8 encoding of a string. -/
def utf8Encode (s : String) : List Nat :=
  (s.data.map utf8EncodeChar).foldr (· ++ ·) []

/-! ### extract_text and compute_content_hash -/

/-- Modelled from the spec: the third-party call
bleach.clean(html, tags=[], strip=True) inside extract_text removes every
tag and keeps the text, per section 4.2 ("plain-text with whitespace
collapsed"); stray unclosed angle brackets are kept as text. -/
def stripTagsGo : Nat → List Char → List Char
  | 0, s => s
  | _ + 1, [] => []
  | fuel + 1, c :: rest =>
    if c = '<' then
      match rest.dropWhile (fun x => x ≠ '>') with
      | _ :: t => stripTagsGo fuel t
      | [] => c :: rest
    else c :: stripTagsGo fuel rest

/-- Tag removal entry point; the fuel is the input length. -/
def stripTags (l : List Char) : List Char :=
  stripTagsGo (l.length + 1) l

/-- extract_text (html_sanitizer.py lines 255-274): strip all tags,
collapse whitespace, None if empty. -/
def extract_text (html : Option String) : Option String :=
  match html with
  | none => none
  | some h =>
    if h = "" then none
    else
      let text := pyStrip (collapseWs (stripTags h.data))
      if text = [] then none else some (String.mk text)

/-- MAX_HASH_SIZE from content_hasher.py. -/
def MAX_HASH_SIZE : Nat := 200 * 1024

/-- compute_content_hash (content_hasher.py lines 53-96): extract text,
join the truthy members of [title, url, text] with newlines, normalize,
truncate oversized input to head plus tail, hash; None whenever content,
the extracted text or the normalized text is empty. -/
def compute_content_hash (content : Option String)
    (title : Option String := none) (url : Option String := none) :
    Option String :=
  match content with
  | none => none
  | some c =>
    if c = "" then none
    else
      match extract_text (some c) with
      | none => none
      | some text =>
        let parts :=
          ([title, url, some text].filterMap id).filter (fun p => p ≠ "")
        let joined := String.intercalate "\n" parts
        let normalized := normalize_for_hash joined
        if normalized = "" then none
        else
          let normalized :=
            if normalized.length > MAX_HASH_SIZE then
              let half := MAX_HASH_SIZE / 2
              String.mk (normalized.data.take half ++
                normalized.data.drop (normalized.length - half))
            else normalized
          some (sha256_hex (utf8Encode normalized))

/-! ## URL normalizer (backend/app/services/url_normalizer.py)

normalize_url is embedded together with a model of the CPython
urllib.parse helpers it calls (urlparse with its component properties,
parse_qs, urlencode, urlunparse).  Percent-decoding maps each %XX escape
to the character of that byte value (ASCII-faithful). -/

/-- Python str.partition: split at the first occurrence of c; when c is
absent the whole input is the first component. -/
def pyPartitionL (l : List Char) (c : Char) : List Char × Bool × List Char :=
  let pre := l.takeWhile (fun x => x ≠ c)
  if pre.length = l.length then (l, false, [])
  else (pre, true, l.drop (pre.length + 1))

/-- Python str.rpartition: split at the last occurrence of c; when c is
absent the whole input is the last component. -/
def pyRPartitionL (l : List Char) (c : Char) : List Char × Bool × List Char :=
  let (a, f, b) := pyPartitionL l.reverse c
  if f then (b.reverse, true, a.reverse) else ([], false, l)

/-- Characters allowed in a URL scheme after the first. -/
def schemeChar (c : Char) : Bool :=
  c.isAlphanum || c = '+' || c = '-' || c = '.'

/-- The split components (scheme, netloc, path, query, fragment) of
urllib.parse.urlsplit, or the ValueError it raises on unbalanced IPv6
brackets in the netloc. -/
def urlsplitModel (url : String) : Except String (String × String × String × String × String) :=
  let l := url.data
  let l := ((l.dropWhile (fun c => c.toNat ≤ 32)).reverse.dropWhile
    (fun c => c.toNat ≤ 32)).reverse
  let l := l.filter (fun c => c ≠ '\t' ∧ c ≠ '\x0d' ∧ c ≠ '\n')
  let (schemeL, rest) :=
    match pyPartitionL l ':' with
    | (pre, true, after) =>
      let headAlpha : Bool := match l with | c :: _ => c.isAlpha | [] => false
      if pre ≠ [] ∧ headAlpha ∧ pre.all schemeChar then
        (pre.map Char.toLower, after)
      else ([], l)
    | _ => ([], l)
  let (netlocL, rest2) :=
    match rest with
    | '/' :: '/' :: t =>
      let nl := t.takeWhile (fun c => c ≠ '/' ∧ c ≠ '?' ∧ c ≠ '#')
      (nl, t.drop nl.length)
    | _ => ([], rest)
  if (netlocL.contains '[') ≠ (netlocL.contains ']') then
    .error "Invalid IPv6 URL"
  else
    let (rest3, fragL) :=
      match pyPartitionL rest2 '#' with
      | (pre, true, after) => (pre, after)
      | _ => (rest2, [])
    let (pathL, queryL) :=
      match pyPartitionL rest3 '?' with
      | (pre, true, after) => (pre, after)
      | _ => (rest3, [])
    .ok (String.mk schemeL, String.mk netlocL, String.mk pathL,
         String.mk queryL, String.mk fragL)

/-- urllib's _splitparams: parameters live after a semicolon in the last
path segment. -/
def splitParams (pathL : List Char) : List Char × List Char :=
  if pathL.contains '/' then
    let lastSlashIdx :=
      pathL.length - 1 - (pathL.reverse.takeWhile (fun c => c ≠ '/')).length
    match pyPartitionL (pathL.drop lastSlashIdx) ';' with
    | (pre, true, after) => (pathL.take lastSlashIdx ++ pre, after)
    | _ => (pathL, [])
  else
    match pyPartitionL pathL ';' with
    | (pre, true, after) => (pre, after)
    | _ => (pathL, [])

/-- Schemes for which urlparse splits path parameters. -/
def usesParams : List String :=
  ["", "ftp", "hdl", "prospero", "http", "imap", "https", "shttp", "rtsp",
   "rtspu", "sip", "sips", "mms", "sftp", "tel"]

/-- The named components of urllib.parse.urlparse. -/
structure UrlParsed where
  scheme : String
  netloc : String
  path : String
  params : String
  query : String
  fragment : String
  deriving DecidableEq, Repr

/-- urllib.parse.urlparse. -/
def urlparseModel (url : String) : Except String UrlParsed :=
  match urlsplitModel url with
  | .error e => .error e
  | .ok (scheme, netloc, path, query, fragment) =>
    let (pathL, paramsL) :=
      if scheme ∈ usesParams ∧ path.data.contains ';' then
        splitParams path.data
      else (path.data, [])
    .ok { scheme := scheme, netloc := netloc, path := String.mk pathL,
          params := String.mk paramsL, query := query, fragment := fragment }

/-- The username component (urllib _userinfo). -/
def urlUsername (netloc : List Char) : Option (List Char) :=
  let (userinfo, hasInfo, _) := pyRPartitionL netloc '@'
  if hasInfo then some (pyPartitionL userinfo ':').1 else none

/-- The password component (urllib _userinfo). -/
def urlPassword (netloc : List Char) : Option (List Char) :=
  let (userinfo, hasInfo, _) := pyRPartitionL netloc '@'
  if hasInfo then
    let (_, havePw, pw) := pyPartitionL userinfo ':'
    if havePw then some pw else none
  else none

/-- The raw (hostname, port-string) pair (urllib _hostinfo). -/
def urlHostPortRaw (netloc : List Char) : List Char × List Char :=
  let hostinfo := (pyRPartitionL netloc '@').2.2
  let (_, haveBr, bracketed) := pyPartitionL hostinfo '['
  if haveBr then
    let (hn, _, after) := pyPartitionL bracketed ']'
    (hn, (pyPartitionL after ':').2.2)
  else
    let (hn, _, p) := pyPartitionL hostinfo ':'
    (hn, p)

/-- The hostname property: lowercased, None when empty. -/
def urlHostname (netloc : List Char) : Option (List Char) :=
  let hn := (urlHostPortRaw netloc).1
  if hn = [] then none else some (hn.map Char.toLower)

/-- The port property: None when empty, ValueError when not a decimal
number in range. -/
def urlPort (netloc : List Char) : Except String (Option Nat) :=
  let p := (urlHostPortRaw netloc).2
  if p = [] then .ok none
  else if p.all Char.isDigit then
    let v := p.foldl (fun a c => a * 10 + (c.toNat - 48)) 0
    if v ≤ 65535 then .ok (some v)
    else .error "Port out of range 0-65535"
  else .error "Port could not be cast to integer value"

/-- Hex digit test. -/
def isHexDigit (c : Char) : Bool :=
  c.isDigit || ('a' ≤ c.toLower ∧ c.toLower ≤ 'f')

/-- Hex digit value. -/
def hexVal (c : Char) : Nat :=
  if c.isDigit then c.toNat - 48 else c.toLower.toNat - 87

/-- urllib unquote_plus: plus to space, %XX escapes to the byte's
character, malformed escapes kept verbatim. -/
def unquotePlus : List Char → List Char
  | [] => []
  | '+' :: rest => ' ' :: unquotePlus rest
  | '%' :: a :: b :: rest =>
    if isHexDigit a ∧ isHexDigit b then
      Char.ofNat (hexVal a * 16 + hexVal b) :: unquotePlus rest
    else '%' :: unquotePlus (a :: b :: rest)
  | c :: rest => c :: unquotePlus rest

/-- urllib quote_plus on one character: alphanumerics and _.-~ kept,
space to plus, anything else percent-encoded (UTF-8, uppercase hex). -/
def quotePlusChar (c : Char) : List Char :=
  if c.isAlphanum || c = '_' || c = '.' || c = '-' || c = '~' then [c]
  else if c = ' ' then ['+']
  else
    ((utf8EncodeChar c).map (fun b =>
      ['%', "0123456789ABCDEF".data.getD (b / 16) '0',
       "0123456789ABCDEF".data.getD (b % 16) '0'])).foldr (· ++ ·) []

/-- urllib quote_plus on a string. -/
def quotePlus (l : List Char) : List Char :=
  (l.map quotePlusChar).foldr (· ++ ·) []

/-- urllib parse_qsl with keep_blank_values=True: split on ampersands,
skip empty fields, split each field at its first equals sign, decode both
sides. -/
def parse_qsl (qs : String) : List (String × String) :=
  (splitOnChar '&' qs.data).filterMap (fun field =>
    if field = [] then none
    else
      let (n, _, v) := pyPartitionL field '='
      some (String.mk (unquotePlus n), String.mk (unquotePlus v)))

/-- parse_qs: group parse_qsl pairs by key in first-occurrence order. -/
def parse_qs (qs : String) : List (String × List String) :=
  (parse_qsl qs).foldl (fun acc kv =>
    if acc.any (fun p => p.1 = kv.1) then
      acc.map (fun p => if p.1 = kv.1 then (p.1, p.2 ++ [kv.2]) else p)
    else acc ++ [(kv.1, [kv.2])]) []

/-- urllib urlencode over a flat pair list. -/
def urlencode (pairs : List (String × String)) : String :=
  String.intercalate "&"
    (pairs.map (fun p =>
      String.mk (quotePlus p.1.data) ++ "=" ++ String.mk (quotePlus p.2.data)))

/-- TRACKING_PARAMS from url_normalizer.py. -/
def TRACKING_PARAMS : List String :=
  ["utm_source", "utm_medium", "utm_campaign", "utm_term", "utm_content",
   "utm_id", "utm_source_platform", "utm_creative_format",
   "fbclid", "fb_action_ids", "fb_action_types", "fb_source", "fb_ref",
   "gclid", "gclsrc", "dclid", "twclid", "msclkid", "mc_cid", "mc_eid",
   "hsa_acc", "hsa_cam", "hsa_grp", "hsa_ad", "hsa_src", "hsa_tgt",
   "hsa_kw", "hsa_mt", "hsa_net", "hsa_ver", "_ga", "_gl", "ref",
   "source", "via"]

/-- DEFAULT_PORTS from url_normalizer.py. -/
def defaultPortOf (scheme : String) : Option Nat :=
  if scheme = "http" then some 80
  else if scheme = "https" then some 443
  else none

/-- Drop every trailing slash (str.rstrip("/")). -/
def rstripSlash (l : List Char) : List Char :=
  (l.reverse.dropWhile (fun c => c = '/')).reverse

/-- normalize_url (url_normalizer.py lines 67-173).  The .ok layer is the
normal return value (None for rejected input); .error is the uncaught
ValueError that parsed.port raises on a malformed port, which propagates
out of the function. -/
def normalize_url (url : Option String) : Except String (Option String) :=
  match url with
  | none => .ok none
  | some u =>
    if u = "" then .ok none
    else
      match urlparseModel u with
      | .error _ => .ok none
      | .ok parsed =>
        let netlocL := parsed.netloc.data
        if pyTruthyOptStr ((urlUsername netlocL).map String.mk) ∨
            pyTruthyOptStr ((urlPassword netlocL).map String.mk) then
          .ok none
        else if ¬(parsed.scheme = "http" ∨ parsed.scheme = "https") then
          .ok none
        else
          match urlHostname netlocL with
          | none => .ok none
          | some hostL =>
            match urlPort netlocL with
            | .error e => .error e
            | .ok portOpt =>
              let port := if portOpt = defaultPortOf parsed.scheme then none
                          else portOpt
              let netloc :=
                match port with
                | some p =>
                  if p ≠ 0 then String.mk hostL ++ ":" ++ toString p
                  else String.mk hostL
                | none => String.mk hostL
              let path := parsed.path
              let path :=
                if path ≠ "" ∧ path ≠ "/" ∧ path.data.getLast? = some '/' then
                  String.mk (rstripSlash path.data)
                else path
              let path := if path = "" then "/" else path
              let filtered :=
                (parse_qs parsed.query).filter
                  (fun p => strToLower p.1 ∉ TRACKING_PARAMS)
              let query :=
                if filtered ≠ [] then
                  let sorted := filtered.mergeSort (fun a b => a.1 ≤ b.1)
                  urlencode (sorted.flatMap (fun p => p.2.map (fun v => (p.1, v))))
                else ""
              let result := parsed.scheme ++ "://" ++ netloc ++
                (if path.data.head? = some '/' then path else "/" ++ path) ++
                (if query ≠ "" then "?" ++ query else "")
              .ok (some result)

/-! ## HTML sanitizer (backend/app/services/html_sanitizer.py)

sanitize_html is embedded with the third-party bleach.Cleaner.clean call
abstracted as a String → String parameter: the pre-cleaning regex passes,
the link-attribute rewrite, the truncation step and the whitespace
cleanup are the code of the source; every theorem below holds for an
arbitrary cleaner. -/

/-- MAX_CONTENT_LENGTH from html_sanitizer.py. -/
def MAX_CONTENT_LENGTH : Nat := 500

/-- Pattern of the script-stripping pass (IGNORECASE, DOTALL, lazy
body). -/
def reScript (n : Nat) : Re :=
  rseqs [rstrCI "<script", .rep (.cls (fun c => c ≠ '>')) 0 n true,
         rchar '>', .rep (.cls (fun _ => true)) 0 n false,
         rstrCI "</script>"]

/-- Pattern of the style-stripping pass. -/
def reStyle (n : Nat) : Re :=
  rseqs [rstrCI "<style", .rep (.cls (fun c => c ≠ '>')) 0 n true,
         rchar '>', .rep (.cls (fun _ => true)) 0 n false,
         rstrCI "</style>"]

/-- Pattern of the HTML-comment-stripping pass. -/
def reComment (n : Nat) : Re :=
  rseqs [rstr "<!--", .rep (.cls (fun _ => true)) 0 n false, rstr "-->"]

/-- Pattern of an opening anchor tag as matched by the fix_links pass
(case sensitive, as in the source). -/
def reATag (n : Nat) : Re :=
  rseqs [rstr "<a", rspace, .rep (.cls (fun c => c ≠ '>')) 0 n true,
         rchar '>']

/-- Pattern of an existing rel attribute inside an anchor tag. -/
def reRelAttr (n : Nat) : Re :=
  rseqs [.rep rspace 1 n true, rstr "rel=", rchar '"',
         .rep (.cls (fun c => c ≠ '"')) 0 n true, rchar '"']

/-- Pattern of an existing target attribute inside an anchor tag. -/
def reTargetAttr (n : Nat) : Re :=
  rseqs [.rep rspace 1 n true, rstr "target=", rchar '"',
         .rep (.cls (fun c => c ≠ '"')) 0 n true, rchar '"']

/-- Python str.replace: replace every occurrence of pat by rep, left to
right. -/
def strReplaceGo (pat rep : List Char) : Nat → List Char → List Char
  | 0, s => s
  | _ + 1, [] => []
  | fuel + 1, c :: rest =>
    if pat ≠ [] ∧ pat.isPrefixOf (c :: rest) then
      rep ++ strReplaceGo pat rep fuel ((c :: rest).drop pat.length)
    else c :: strReplaceGo pat rep fuel rest

/-- str.replace entry point; the fuel is the input length. -/
def strReplaceL (pat rep : List Char) (s : List Char) : List Char :=
  strReplaceGo pat rep (s.length + 1) s

/-- The fix_links callback (html_sanitizer.py lines 222-231): drop
existing rel and target attributes, then inject the hardened ones after
the tag opener. -/
def fixLinks (tag : List Char) : List Char :=
  let tag := pySub (reRelAttr tag.length) (fun _ => []) tag
  let tag := pySub (reTargetAttr tag.length) (fun _ => []) tag
  strReplaceL "<a ".data
    "<a rel=\"noopener noreferrer\" target=\"_blank\" ".data tag

/-- Index of the last occurrence of c (str.rfind: -1 when absent). -/
def rfindIdx (l : List Char) (c : Char) : Int :=
  if l.contains c then
    (l.length : Int) - 1 - ((l.reverse.takeWhile (fun x => x ≠ c)).length : Int)
  else -1

/-- The truncation step of sanitize_html (lines 236-247): slice to the
cap, back off to before a trailing incomplete tag, append the ellipsis. -/
def truncateStep (truncate : Bool) (sanitized : List Char) : List Char :=
  if truncate ∧ sanitized.length > MAX_CONTENT_LENGTH then
    let truncated := sanitized.take MAX_CONTENT_LENGTH
    let last_lt := rfindIdx truncated '<'
    let last_gt := rfindIdx truncated '>'
    let truncated :=
      if last_lt > last_gt then truncated.take last_lt.toNat else truncated
    truncated ++ "...".data
  else sanitized

/-- sanitize_html (lines 177-252), with the bleach cleaner as the clean
parameter: strip script and style blocks and comments, clean, rewrite
anchors, truncate, collapse whitespace, None when empty. -/
def sanitize_html (clean : String → String) (html : Option String)
    (truncate : Bool) : Option String :=
  match html with
  | none => none
  | some h =>
    if h = "" then none
    else
      let l := pySub (reScript h.data.length) (fun _ => []) h.data
      let l := pySub (reStyle l.length) (fun _ => []) l
      let l := pySub (reComment l.length) (fun _ => []) l
      let sanitized := (clean (String.mk l)).data
      let sanitized := pySub (reATag sanitized.length) fixLinks sanitized
      let sanitized := truncateStep truncate sanitized
      let sanitized := pyStrip (collapseWs sanitized)
      if sanitized = [] then none else some (String.mk sanitized)

/-! ## Feed ingestion (backend/app/services/feed_ingestion.py)

The database is the list of post rows plus the feed row; queries filter
by feed id exactly as the source does.  fetch_and_parse is outside this
model: ingestion is embedded from the per-entry processing loop onwards
(lines 117-186 and 227-250). -/

/-- The feed columns ingestion reads or writes for deduplication. -/
structure FeedRec where
  id : Nat
  guid_unreliable : Bool
  guid_collision_count : Nat
  allow_duplicate_urls : Bool
  deriving DecidableEq, Repr

/-- The post columns ingestion creates. -/
structure IngPost where
  id : Nat
  feed_id : Nat
  guid : Option String
  url : Option String
  normalized_url : Option String
  title : Option String
  content : Option String
  content_hash : Option String
  published_at : Option ℚ
  fetched_at : ℚ
  sort_date : ℚ
  is_read : Bool
  deriving DecidableEq, Repr

/-- A parsed feed entry (feed_parser.ParsedEntry). -/
structure IngEntry where
  guid : Option String
  url : Option String
  title : Option String
  author : Option String
  content : Option String
  published_at : Option ℚ
  deriving DecidableEq, Repr

/-- _check_duplicate_by_guid (lines 38-71): find a post of this feed with
the same guid; under guid_unreliable report only the duplicate, else also
whether the URLs disagree (a collision). -/
def check_duplicate_by_guid (posts : List IngPost) (feed : FeedRec)
    (guid : Option String) (normalized_url : Option String) : Bool × Bool :=
  if ¬ pyTruthyOptStr guid then (false, false)
  else
    match posts.find? (fun p => p.feed_id = feed.id ∧ p.guid = guid) with
    | none => (false, false)
    | some existing =>
      if feed.guid_unreliable then (true, false)
      else
        (true,
         pyTruthyOptStr normalized_url ∧
           pyTruthyOptStr existing.normalized_url ∧
           existing.normalized_url ≠ normalized_url)

/-- _check_duplicate_by_url (lines 74-87). -/
def check_duplicate_by_url (posts : List IngPost) (feed : FeedRec)
    (normalized_url : Option String) : Bool :=
  if ¬ pyTruthyOptStr normalized_url ∨ feed.allow_duplicate_urls then false
  else posts.any (fun p => p.feed_id = feed.id ∧ p.normalized_url = normalized_url)

/-- _check_duplicate_by_hash (lines 90-114): fallback only when the entry
has neither guid nor normalized URL. -/
def check_duplicate_by_hash (posts : List IngPost) (feed : FeedRec)
    (content_hash : Option String) (has_guid has_url : Bool) : Bool :=
  if ¬ pyTruthyOptStr content_hash then false
  else if has_guid ∨ has_url then false
  else posts.any (fun p => p.feed_id = feed.id ∧ p.content_hash = content_hash)

/-- _process_entry (lines 117-186): normalize, sanitize, hash, run the
three dedup checks in order with collision bookkeeping, build the post.
An uncaught exception from normalize_url propagates (the caller's
per-entry handler catches it). -/
def process_entry (clean : String → String) (feed : FeedRec)
    (posts : List IngPost) (entry : IngEntry) (now : ℚ) :
    Except String (Option IngPost × FeedRec) :=
  match normalize_url entry.url with
  | .error e => .error e
  | .ok normalized_url =>
    let content := sanitize_html clean entry.content true
    let content_hash :=
      compute_content_hash entry.content entry.title entry.url
    let (is_dup, collision) :=
      check_duplicate_by_guid posts feed entry.guid normalized_url
    let feed :=
      if collision then
        let cnt := feed.guid_collision_count + 1
        let feed := { feed with guid_collision_count := cnt }
        if cnt ≥ 3 then { feed with guid_unreliable := true } else feed
      else feed
    if is_dup then .ok (none, feed)
    else if check_duplicate_by_url posts feed normalized_url then
      .ok (none, feed)
    else if check_duplicate_by_hash posts feed content_hash
        (pyTruthyOptStr entry.guid) (pyTruthyOptStr normalized_url) then
      .ok (none, feed)
    else
      let sort_date := entry.published_at.getD now
      .ok (some
        { id := 0
          feed_id := feed.id
          guid := entry.guid
          url := entry.url
          normalized_url := normalized_url
          title := entry.title
          content := content
          content_hash := content_hash
          published_at := entry.published_at
          fetched_at := now
          sort_date := sort_date
          is_read := false }, feed)

/-- The tables and counters the ingestion loop carries. -/
structure IngestState where
  feed : FeedRec
  posts : List IngPost
  queue : List (Nat × String)
  next_post_id : Nat
  new_posts : Nat
  skipped_duplicates : Nat
  errors : Nat
  deriving DecidableEq, Repr

/-- One iteration of the entry loop of ingest_feed (lines 227-250):
process the entry, flush to obtain the post id, enqueue for
summarization only when the post has a content hash; exceptions are
caught and counted. -/
def ingest_entry (clean : String → String) (now : ℚ) (s : IngestState)
    (entry : IngEntry) : IngestState :=
  match process_entry clean s.feed s.posts entry now with
  | .error _ => { s with errors := s.errors + 1 }
  | .ok (none, feed) =>
    { s with feed := feed, skipped_duplicates := s.skipped_duplicates + 1 }
  | .ok (some post, feed) =>
    let post := { post with id := s.next_post_id }
    let s := { s with
      feed := feed
      posts := s.posts ++ [post]
      next_post_id := s.next_post_id + 1 }
    let s :=
      if pyTruthyOptStr post.content_hash then
        { s with queue := s.queue ++ [(post.id, post.content_hash.getD "")] }
      else s
    { s with new_posts := s.new_posts + 1 }

/-- The entry loop over a parsed feed. -/
def ingest_entries (clean : String → String) (now : ℚ) (s : IngestState)
    (entries : List IngEntry) : IngestState :=
  entries.foldl (ingest_entry clean now) s

/-! ## User interest profile (backend/app/services/user_profile.py)

The settings table is an association list in row order; set_setting
updates the first row with the key or appends a new one. -/

/-- set_setting (user_profile.py lines 27-34). -/
def set_setting : List (String × String) → String → String →
    List (String × String)
  | [], k, v => [(k, v)]
  | p :: rest, k, v =>
    if p.1 = k then (k, v) :: rest else p :: set_setting rest k v

/-- get_setting (user_profile.py lines 21-24). -/
def get_setting (s : List (String × String)) (k : String) : Option String :=
  (s.find? (fun p => p.1 = k)).map (fun p => p.2)

/-- A value found under the tags key of the parsed LLM payload. -/
inductive TagsField where
  /-- the key is missing: result.get("tags", []) yields []. -/
  | absent
  /-- present but not a list: the isinstance check replaces it by []. -/
  | notAList
  /-- a JSON list; elements are strings or other values. -/
  | list (l : List (Option String))
  deriving DecidableEq, Repr

/-- Tag normalization (user_profile.py lines 195-201): keep string
elements whose strip is truthy, as t.lower().strip(). -/
def normalize_profile_tags : TagsField → List String
  | .absent => []
  | .notAList => []
  | .list l =>
    l.filterMap (fun v =>
      match v with
      | some t =>
        if pyStripS t ≠ "" then some (pyStripS (strToLower t)) else none
      | none => none)

/-- json.dumps of one string (escapes kept to the characters these tags
can contain). -/
def jsonDumpStr (t : String) : String :=
  "\"" ++ String.mk (t.data.foldr (fun c acc =>
    if c = '"' then '\\' :: '"' :: acc
    else if c = '\\' then '\\' :: '\\' :: acc
    else c :: acc) []) ++ "\""

/-- json.dumps of a string list. -/
def jsonDumpStrList (l : List String) : String :=
  "[" ++ String.intercalate ", " (l.map jsonDumpStr) ++ "]"

/-- The persistence tail of generate_user_profile (lines 194-219), after
the LLM response parsed: strip the profile text, normalize the tags,
bail out on an empty profile, otherwise write the four settings rows and
commit.  The updated-at value is rendered from the clock parameter. -/
def finalize_profile (settings : List (String × String)) (nowIso : String)
    (profileField : Option String) (tagsField : TagsField) :
    Option (String × List String) × List (String × String) :=
  let profile_text := pyStripS (profileField.getD "")
  let tags := normalize_profile_tags tagsField
  if ¬ pyTruthyStr profile_text then (none, settings)
  else
    let s := set_setting settings "user_interest_profile" profile_text
    let s := set_setting s "user_interest_tags" (jsonDumpStrList tags)
    let s := set_setting s "user_profile_updated_at" nowIso
    let s := set_setting s "user_profile_stale" "0"
    (some (profile_text, tags), s)

/-! ## Scenario constants used by concrete theorems -/

/-- A feed with guid-based dedup, no collisions yet, URL dedup enabled. -/
def guidFeed : FeedRec :=
  { id := 1, guid_unreliable := false, guid_collision_count := 0,
    allow_duplicate_urls := false }

/-- The empty ingestion state over guidFeed. -/
def guidState0 : IngestState :=
  { feed := guidFeed, posts := [], queue := [], next_post_id := 1,
    new_posts := 0, skipped_duplicates := 0, errors := 0 }

/-- An entry with the fixed guid g and the given URL; no content, so the
bleach cleaner passed to ingestion below is never invoked and the id
function stands in for it. -/
def guidEntry (u : String) : IngEntry :=
  { guid := some "g", url := some u, title := none, author := none,
    content := none, published_at := none }

/-- State after the initial insert of guid g and three same-guid entries
with pairwise different normalized URLs. -/
def guidAfter4 : IngestState :=
  ingest_entries id 0 guidState0
    [guidEntry "https://example.com/a", guidEntry "https://example.com/b",
     guidEntry "https://example.com/c", guidEntry "https://example.com/d"]

/-- A fifth same-guid entry with a fresh normalized URL. -/
def guidEntry5 : IngEntry := guidEntry "https://example.com/e"

/-- 501 letters: sanitizes to itself under any tag filter (no markup), a
concrete input exceeding the truncation cap.  Modelled from the spec:
bleach.Cleaner.clean is the identity on plain text without markup, so id
stands in for the cleaner on this input. -/
def aaa501 : String := String.mk (List.replicate 501 'a')

/-- An entry whose content is pure boilerplate ("share"), with no title
and no URL: its content hash is None. -/
def shareEntry : IngEntry :=
  { guid := some "sg", url := none, title := none, author := none,
    content := some "share", published_at := none }

/-- A fresh ingestion state for the boilerplate-entry scenario. -/
def shareState0 : IngestState :=
  { feed := { id := 2, guid_unreliable := false, guid_collision_count := 0,
              allow_duplicate_urls := false },
    posts := [], queue := [], next_post_id := 1, new_posts := 0,
    skipped_duplicates := 0, errors := 0 }

/-! ## Theorems -/

/-! ## Helper lemmas -/

theorem length_dropWhile_le_chars (l : List Char) (p : Char → Bool) :
    (l.dropWhile p).length ≤ l.length := by
  induction l with
  | nil => simp [List.dropWhile]
  | cons x t ih =>
    simp only [List.dropWhile]
    by_cases hx : p x
    · simp [hx]; omega
    · simp [hx]

theorem collapseWs_length_le (l : List Char) :
    (collapseWs l).length ≤ l.length := by
  induction l with
  | nil => simp [collapseWs]
  | cons c rest ih =>
    simp only [collapseWs]
    by_cases hc : isPySpace c
    · simp only [hc, if_true]
      split
      · simp_all; omega
      · simp; omega
    · simp [hc]; omega

theorem pyStrip_length_le (l : List Char) :
    (pyStrip l).length ≤ l.length := by
  unfold pyStrip
  have h1 := length_dropWhile_le_chars l isPySpace
  have h2 := length_dropWhile_le_chars (l.dropWhile isPySpace).reverse isPySpace
  simp only [List.length_reverse] at h2 ⊢
  omega

theorem truncateStep_true_length_le (l : List Char) :
    (truncateStep true l).length ≤ MAX_CONTENT_LENGTH + 3 := by
  unfold truncateStep
  split
  · have hb0 : (l.take MAX_CONTENT_LENGTH).length ≤ MAX_CONTENT_LENGTH := by
      simp [List.length_take]
    dsimp only
    split
    · simp only [List.length_append]
      have hmin :
          ((l.take MAX_CONTENT_LENGTH).take
            (rfindIdx (l.take MAX_CONTENT_LENGTH) '<').toNat).length ≤
            (l.take MAX_CONTENT_LENGTH).length := by
        simp [List.length_take]
      have h3 : (['.', '.', '.'] : List Char).length = 3 := rfl
      omega
    · simp only [List.length_append]
      have h3 : (['.', '.', '.'] : List Char).length = 3 := rfl
      omega
  · rename_i h
    simp only [not_and, Nat.not_lt, gt_iff_lt, true_and, not_lt] at h
    omega

theorem sanitize_tail_le (l : List Char) :
    (pyStrip (collapseWs (truncateStep true l))).length ≤
      MAX_CONTENT_LENGTH + 3 :=
  le_trans (pyStrip_length_le _)
    (le_trans (collapseWs_length_le _) (truncateStep_true_length_le l))

theorem get_set_setting_same (s : List (String × String)) (k v : String) :
    get_setting (set_setting s k v) k = some v := by
  induction s with
  | nil => simp [set_setting, get_setting]
  | cons p rest ih =>
    by_cases hk : p.1 = k
    · simp [set_setting, get_setting, hk]
    · simp only [set_setting, if_neg hk]
      simp only [get_setting, List.find?] at ih ⊢
      simp [hk, ih]

theorem get_set_setting_ne (s : List (String × String)) (k v k' : String)
    (h : k' ≠ k) :
    get_setting (set_setting s k v) k' = get_setting s k' := by
  have h2 : ¬ (k = k') := fun hh => h hh.symm
  induction s with
  | nil => simp [set_setting, get_setting, h2]
  | cons p rest ih =>
    by_cases hk : p.1 = k
    · have h3 : ¬ (p.1 = k') := by rw [hk]; exact h2
      simp [set_setting, get_setting, hk, h2, h3, List.find?]
    · simp only [set_setting, if_neg hk]
      by_cases hp : p.1 = k'
      · simp [get_setting, List.find?, hp]
      · simp only [get_setting, List.find?] at ih ⊢
        simp [hp, ih]

theorem record_failure_from_closed (cfg : CerebrasSettings) (now : ℚ)
    (b : CircuitBreaker) (hb : b.state = .closed) :
    (CircuitBreaker.record_failure cfg now b).failures = b.failures + 1 ∧
    (CircuitBreaker.record_failure cfg now b).state =
      (if b.failures + 1 ≥ cfg.failure_threshold then .opened else .closed) := by
  unfold CircuitBreaker.record_failure
  simp only [hb]
  split
  · simp_all
  · split <;> simp_all

theorem record_failure_keeps_opened (cfg : CerebrasSettings) (now : ℚ)
    (b : CircuitBreaker) (hb : b.state = .opened) :
    (CircuitBreaker.record_failure cfg now b).state = .opened := by
  unfold CircuitBreaker.record_failure
  simp only [hb]
  split
  · simp_all
  · split <;> simp_all

theorem record_failures_keep_opened (cfg : CerebrasSettings)
    (times : List ℚ) (b : CircuitBreaker) (hb : b.state = .opened) :
    (CircuitBreaker.record_failures cfg times b).state = .opened := by
  induction times generalizing b with
  | nil => simpa [CircuitBreaker.record_failures]
  | cons t rest ih =>
    simp only [CircuitBreaker.record_failures, List.foldl_cons] at ih ⊢
    exact ih _ (record_failure_keeps_opened cfg t b hb)

theorem record_failures_open (cfg : CerebrasSettings) (times : List ℚ)
    (b : CircuitBreaker) (hb : b.state = .closed)
    (hcount : cfg.failure_threshold ≤ b.failures + times.length)
    (hpos : 1 ≤ times.length) :
    (CircuitBreaker.record_failures cfg times b).state = .opened := by
  induction times generalizing b with
  | nil => simp at hpos
  | cons t rest ih =>
    simp only [CircuitBreaker.record_failures, List.foldl_cons] at ih ⊢
    obtain ⟨hf, hs⟩ := record_failure_from_closed cfg t b hb
    by_cases hge : cfg.failure_threshold ≤ b.failures + 1
    · have hopen : (CircuitBreaker.record_failure cfg t b).state = .opened := by
        rw [hs, if_pos hge]
      exact record_failures_keep_opened cfg rest _ hopen
    · have hclosed : (CircuitBreaker.record_failure cfg t b).state = .closed := by
        rw [hs, if_neg hge]
      have hlen : 1 ≤ rest.length := by
        rcases rest with _ | ⟨r, rs⟩
        · simp at hcount; omega
        · simp
      have hcount2 : cfg.failure_threshold ≤
          (CircuitBreaker.record_failure cfg t b).failures + rest.length := by
        rw [hf]; simp at hcount; omega
      exact ih _ hclosed hcount2 hlen

theorem record_success_from_half (cfg : CerebrasSettings) (now : ℚ)
    (b : CircuitBreaker) (hb : b.state = .half) :
    (CircuitBreaker.record_success cfg now b).half_successes =
      b.half_successes + 1 ∧
    ((CircuitBreaker.record_success cfg now b).state, (CircuitBreaker.record_success cfg now b).failures) =
      (if b.half_successes + 1 ≥ cfg.half_open_max_requests then
        (CircuitState.closed, 0)
      else (.half, b.failures)) := by
  unfold CircuitBreaker.record_success
  simp only [hb]
  split
  · split <;> simp_all
  · simp_all

theorem record_success_keeps_reset (cfg : CerebrasSettings) (now : ℚ)
    (b : CircuitBreaker) (hb : b.state = .closed) :
    (CircuitBreaker.record_success cfg now b).state = .closed ∧
    (CircuitBreaker.record_success cfg now b).failures = 0 := by
  unfold CircuitBreaker.record_success
  simp only [hb]
  split
  · simp_all
  · simp_all

theorem record_successes_keep_reset (cfg : CerebrasSettings)
    (times : List ℚ) (b : CircuitBreaker) (hb : b.state = .closed)
    (hf : b.failures = 0) :
    (CircuitBreaker.record_successes cfg times b).state = .closed ∧
    (CircuitBreaker.record_successes cfg times b).failures = 0 := by
  induction times generalizing b with
  | nil =>
    simp only [CircuitBreaker.record_successes, List.foldl_nil]
    exact ⟨hb, hf⟩
  | cons t rest ih =>
    simp only [CircuitBreaker.record_successes, List.foldl_cons] at ih ⊢
    obtain ⟨h1, h2⟩ := record_success_keeps_reset cfg t b hb
    exact ih _ h1 h2

theorem record_successes_close (cfg : CerebrasSettings) (times : List ℚ)
    (b : CircuitBreaker) (hb : b.state = .half)
    (hcount : cfg.half_open_max_requests ≤ b.half_successes + times.length)
    (hpos : 1 ≤ times.length) :
    (CircuitBreaker.record_successes cfg times b).state = .closed ∧
    (CircuitBreaker.record_successes cfg times b).failures = 0 := by
  induction times generalizing b with
  | nil => simp at hpos
  | cons t rest ih =>
    simp only [CircuitBreaker.record_successes, List.foldl_cons] at ih ⊢
    obtain ⟨hh, hs⟩ := record_success_from_half cfg t b hb
    by_cases hge : cfg.half_open_max_requests ≤ b.half_successes + 1
    · rw [if_pos hge] at hs
      have h1 : (CircuitBreaker.record_success cfg t b).state = .closed := by
        have := congrArg Prod.fst hs; simpa using this
      have h2 : (CircuitBreaker.record_success cfg t b).failures = 0 := by
        have := congrArg Prod.snd hs; simpa using this
      exact record_successes_keep_reset cfg rest _ h1 h2
    · rw [if_neg hge] at hs
      have h1 : (CircuitBreaker.record_success cfg t b).state = .half := by
        have := congrArg Prod.fst hs; simpa using this
      have hlen : 1 ≤ rest.length := by
        rcases rest with _ | ⟨r, rs⟩
        · simp at hcount; omega
        · simp
      have hcount2 : cfg.half_open_max_requests ≤
          (CircuitBreaker.record_success cfg t b).half_successes + rest.length := by
        rw [hh]; simp at hcount; omega
      exact ih _ h1 hcount2 hlen

/-! ## Claim theorems -/

/-- C6: the circuit breaker follows its state machine: failure_threshold
consecutive failures from a fresh CLOSED state open the circuit; once
recovery_timeout has elapsed since the last failure (and the inter-call
interval has passed, which in OPEN always holds under the defaults since
the last call is the last failure), the next can_call moves OPEN to HALF;
half_open_max_requests consecutive successes in HALF close the circuit
and reset the failure count; a single failure in HALF reopens it. -/
theorem circuit_breaker_state_machine (cfg : CerebrasSettings) :
    (∀ (times : List ℚ) (b : CircuitBreaker),
      b.state = .closed → b.failures = 0 →
      times.length = cfg.failure_threshold → 1 ≤ cfg.failure_threshold →
      (CircuitBreaker.record_failures cfg times b).state = .opened) ∧
    (∀ (b : CircuitBreaker) (now lc lf : ℚ),
      b.state = .opened → b.last_call = some lc → b.last_failure = some lf →
      60 / cfg.cerebras_max_rpm ≤ now - lc →
      cfg.recovery_timeout_seconds ≤ now - lf →
      CircuitBreaker.can_call cfg now b =
        (true, { b with state := .half, half_successes := 0 })) ∧
    (∀ (times : List ℚ) (b : CircuitBreaker),
      b.state = .half → b.half_successes = 0 →
      times.length = cfg.half_open_max_requests →
      1 ≤ cfg.half_open_max_requests →
      (CircuitBreaker.record_successes cfg times b).state = .closed ∧
      (CircuitBreaker.record_successes cfg times b).failures = 0) ∧
    (∀ (now : ℚ) (b : CircuitBreaker), b.state = .half →
      (CircuitBreaker.record_failure cfg now b).state = .opened) := by
  refine ⟨?_, ?_, ?_, ?_⟩
  · intro times b hb hf hlen hthr
    exact record_failures_open cfg times b hb (by omega) (by omega)
  · intro b now lc lf hb hlc hlf hint hrec
    have h1 : ¬ (now - lc < 60 / cfg.cerebras_max_rpm) := not_lt.mpr hint
    have h2 : now - lf ≥ cfg.recovery_timeout_seconds := hrec
    simp [CircuitBreaker.can_call, hlc, hlf, hb, h1, h2]
  · intro times b hb hh hlen hmax
    exact record_successes_close cfg times b hb (by omega) (by omega)
  · intro now b hb
    unfold CircuitBreaker.record_failure
    simp [hb]

/-- Witness for C6 at the config defaults: five failures open a fresh
breaker; a 300-second wait lets can_call probe; three successes close it;
one HALF failure reopens. -/
theorem circuit_breaker_state_machine_witness :
    (CircuitBreaker.record_failures defaultSettings [1, 2, 3, 4, 5]
      CircuitBreaker.initial).state = .opened ∧
    CircuitBreaker.can_call defaultSettings 300
      { state := .opened, failures := 5, half_successes := 0,
        last_failure := some 0, last_call := some 0 } =
      (true, { state := .half, failures := 5, half_successes := 0,
               last_failure := some 0, last_call := some 0 }) ∧
    ((CircuitBreaker.record_successes defaultSettings [301, 302, 303]
      { state := .half, failures := 5, half_successes := 0,
        last_failure := some 0, last_call := some 300 }).state = .closed ∧
     (CircuitBreaker.record_successes defaultSettings [301, 302, 303]
      { state := .half, failures := 5, half_successes := 0,
        last_failure := some 0, last_call := some 300 }).failures = 0) ∧
    (CircuitBreaker.record_failure defaultSettings 400
      { state := .half, failures := 5, half_successes := 1,
        last_failure := some 0, last_call := some 301 }).state = .opened := by
  refine ⟨?_, ?_, ?_, ?_⟩
  · exact (circuit_breaker_state_machine defaultSettings).1 [1, 2, 3, 4, 5]
      CircuitBreaker.initial rfl rfl (by decide) (by decide)
  · exact (circuit_breaker_state_machine defaultSettings).2.1 _ 300 0 0 rfl
      rfl rfl (by norm_num [defaultSettings]) (by norm_num [defaultSettings])
  · exact (circuit_breaker_state_machine defaultSettings).2.2.1
      [301, 302, 303] _ rfl rfl (by decide) (by decide)
  · exact (circuit_breaker_state_machine defaultSettings).2.2.2 400 _ rfl

/-- C7: on an HTTP 429 the response handler of generate_summary puts the
used key into a 60-second cooldown on the rotator and raises
TemporaryError, and the circuit breaker record (state, failure count,
last-failure and last-call timestamps) is left exactly as it was: the
429 branch runs neither record_failure nor record_success. -/
theorem rate_limit_429_only_cools_key (cfg : CerebrasSettings) (now : ℚ)
    (api_key : String) (b : CircuitBreaker) (rot : ApiKeyRotator)
    (body : LlmBody) :
    handle_response cfg now api_key b rot 429 body =
      (.temporary "Rate limit reached", b,
       ApiKeyRotator.set_key_cooldown now api_key 60 rot) ∧
    (ApiKeyRotator.set_key_cooldown now api_key 60 rot).key_cooldowns
      api_key = some (now + 60) ∧
    (handle_response cfg now api_key b rot 429 body).2.1 = b := by
  refine ⟨?_, ?_, ?_⟩ <;>
    simp [handle_response, ApiKeyRotator.set_key_cooldown]

/-- C8: a retention pass never touches a starred post: whatever its
read_at, fetched_at or full_content, the post row survives both delete
statements and the full_content update unchanged. -/
theorem retention_never_touches_starred (cfg : RetentionSettings)
    (now : ℚ) (posts : List PostRow) (p : PostRow) (hmem : p ∈ posts)
    (hstar : p.is_starred = some true) :
    p ∈ cleanup_retention cfg now posts := by
  have hns : notStarredCond p = false := by simp [notStarredCond, hstar]
  unfold cleanup_retention
  dsimp only
  apply List.mem_map.mpr
  refine ⟨p, ?_, by simp [hns]⟩
  apply List.mem_filter.mpr
  refine ⟨List.mem_filter.mpr ⟨hmem, by simp [hns]⟩, by simp [hns]⟩

/-- Witness for C8: a starred post read two years ago, fetched two years
ago, with stored full content, survives a cleanup at the default
retention settings. -/
theorem retention_never_touches_starred_witness :
    ({ id := 7, is_read := true, read_at := some 0, fetched_at := some 0,
       is_starred := some true, full_content := some "body" } : PostRow) ∈
      cleanup_retention { max_post_age_days := 365, max_unread_days := 90 }
        63072000
        [{ id := 7, is_read := true, read_at := some 0, fetched_at := some 0,
           is_starred := some true, full_content := some "body" }] :=
  retention_never_touches_starred _ _ _ _ (by simp) rfl

/-- C1: the worker success branch never completes: SummaryResult carries
no tags attribute, so for every generated result the read of
summary_result.tags raises AttributeError, the handler rolls the
transaction back, and neither the AISummary insert, nor any tag write,
nor the queue-entry delete survives. -/
theorem summary_success_path_attribute_error (db : WorkerDb)
    (candidate : QueueEntry) (post_id : Nat) (r : SummaryResult) :
    SummaryResult.getattr r "tags" = none ∧
    process_summary_success db candidate post_id r =
      .attrErrorRolledBack db := by
  exact ⟨rfl, rfl⟩

/-- C2: the rotator defines no has_available_key attribute, so a worker
tick either stops at the circuit-breaker denial (sleeping without
claiming) or raises AttributeError at the line-574 availability check,
which the loop handler catches before any queue access; in particular
every tick the breaker allows ends in the AttributeError path and no
queue entry is ever claimed. -/
theorem worker_tick_availability_attribute_error :
    ("has_available_key" ∉ apiKeyRotatorAttrs) ∧
    (∀ (cfg : CerebrasSettings) (now : ℚ) (b : CircuitBreaker),
      (worker_tick_start cfg now b).1 = .sleepCircuitDenied ∨
      (worker_tick_start cfg now b).1 =
        .exceptionLoggedSleep "has_available_key") ∧
    (∀ (cfg : CerebrasSettings) (now : ℚ) (b : CircuitBreaker),
      (CircuitBreaker.can_call cfg now b).1 = true →
      (worker_tick_start cfg now b).1 =
        .exceptionLoggedSleep "has_available_key") ∧
    (∀ (cfg : CerebrasSettings) (now : ℚ) (b : CircuitBreaker),
      (CircuitBreaker.can_call cfg now b).1 = false →
      (worker_tick_start cfg now b).1 = .sleepCircuitDenied) := by
  refine ⟨by decide, ?_, ?_, ?_⟩
  · intro cfg now b
    unfold worker_tick_start
    rcases h : CircuitBreaker.can_call cfg now b with ⟨c, b1⟩
    cases c
    · left; simp
    · right; simp [apiKeyRotatorAttrs]
  · intro cfg now b hcall
    unfold worker_tick_start
    rcases h : CircuitBreaker.can_call cfg now b with ⟨c, b1⟩
    rw [h] at hcall
    simp at hcall
    subst hcall
    simp [apiKeyRotatorAttrs]
  · intro cfg now b hcall
    unfold worker_tick_start
    rcases h : CircuitBreaker.can_call cfg now b with ⟨c, b1⟩
    rw [h] at hcall
    simp at hcall
    subst hcall
    simp

/-- Witness for C2: a fresh CLOSED breaker lets the tick through to the
AttributeError path; a just-failed OPEN breaker makes it sleep on the
circuit denial. -/
theorem worker_tick_availability_attribute_error_witness :
    (worker_tick_start defaultSettings 0 CircuitBreaker.initial).1 =
      .exceptionLoggedSleep "has_available_key" ∧
    (worker_tick_start defaultSettings 1
      { state := .opened, failures := 5, half_successes := 0,
        last_failure := some 0, last_call := some 0 }).1 =
      .sleepCircuitDenied :=
  ⟨worker_tick_availability_attribute_error.2.2.1 defaultSettings 0
    CircuitBreaker.initial (by decide),
   worker_tick_availability_attribute_error.2.2.2 defaultSettings 1
    { state := .opened, failures := 5, half_successes := 0,
      last_failure := some 0, last_call := some 0 }
    (by norm_num [CircuitBreaker.can_call, defaultSettings])⟩

/-- C5: URL normalization is not idempotent: on the bracketed IPv6 URL
https://[::1]/x the netloc is rebuilt without brackets, and normalizing
the output https://::1/x yields None (the unbracketed host parses as an
empty hostname), so normalize(normalize(u)) differs from normalize(u). -/
theorem normalize_url_ipv6_not_idempotent :
    normalize_url (some "https://[::1]/x") = .ok (some "https://::1/x") ∧
    normalize_url (some "https://::1/x") = .ok none ∧
    normalize_url (some "https://::1/x") ≠
      normalize_url (some "https://[::1]/x") := by
  refine ⟨rfl, rfl, ?_⟩
  intro h
  rw [show normalize_url (some "https://::1/x") = Except.ok none from rfl,
      show normalize_url (some "https://[::1]/x") =
        Except.ok (some "https://::1/x") from rfl] at h
  simp at h

set_option maxRecDepth 8192 in
/-- C3 counterexample: after the initial insert of guid g and three
same-guid entries with pairwise different normalized URLs, the feed shows
guid_collision_count = 3 and guid_unreliable = true exactly as the claim
says, but the next same-guid entry with a fresh normalized URL is NOT
inserted as a new post: _check_duplicate_by_guid still reports a
duplicate under guid_unreliable. -/
theorem guid_collision_counterexample :
    guidAfter4.feed.guid_collision_count = 3 ∧
    guidAfter4.feed.guid_unreliable = true ∧
    ¬ ((ingest_entry id 0 guidAfter4 guidEntry5).new_posts =
        guidAfter4.new_posts + 1) := by
  refine ⟨by decide, by decide, by decide⟩

set_option maxRecDepth 8192 in
/-- C3 amended: three same-guid, different-URL inserts drive
guid_collision_count to 3 and set guid_unreliable; once the flag is set a
subsequent same-guid entry with a fresh normalized URL is still skipped
as a guid duplicate (collision counting stops, but guid-based dedup
stays in force to avoid the per-feed unique constraint), so it is
counted as a skipped duplicate and no post row is added. -/
theorem guid_collision_amended :
    guidAfter4.feed.guid_collision_count = 3 ∧
    guidAfter4.feed.guid_unreliable = true ∧
    (ingest_entry id 0 guidAfter4 guidEntry5).new_posts =
      guidAfter4.new_posts ∧
    (ingest_entry id 0 guidAfter4 guidEntry5).skipped_duplicates =
      guidAfter4.skipped_duplicates + 1 ∧
    (ingest_entry id 0 guidAfter4 guidEntry5).posts = guidAfter4.posts ∧
    (ingest_entry id 0 guidAfter4 guidEntry5).feed.guid_collision_count =
      3 := by
  refine ⟨by decide, by decide, by decide, by decide, by decide, by decide⟩

set_option maxRecDepth 16384 in
/-- C4 counterexample: 501 letters sanitize (under the identity cleaner,
faithful for markup-free text) to a 503-character string: the ellipsis is
appended after the 500-character cut, so the output exceeds 500. -/
theorem sanitize_truncation_counterexample :
    (sanitize_html id (some aaa501) true).map String.length = some 503 ∧
    ¬ (503 ≤ 500) := by
  refine ⟨by decide, by decide⟩

/-- C4 amended: with truncate=true, sanitize_html returns None or a
string of at most 503 characters (the 500-character cap plus the
three-character ellipsis appended when the text is cut back to a safe
boundary), for every input and every cleaner. -/
theorem sanitize_truncation_bound (clean : String → String)
    (html : Option String) :
    ((sanitize_html clean html true).map String.length).getD 0 ≤
      MAX_CONTENT_LENGTH + 3 := by
  cases html with
  | none => exact Nat.zero_le _
  | some h =>
    simp only [sanitize_html]
    split
    · exact Nat.zero_le _
    · split
      · exact Nat.zero_le _
      · exact sanitize_tail_le _

/-- C9 counterexample: the LLM tags ["AI", " ai "] are persisted as the
list ["ai", "ai"], which contains two equal entries: generate_user_profile
lowercases, trims and drops empties but does not deduplicate. -/
theorem profile_tags_counterexample :
    (finalize_profile [] "t0" (some "science and ai")
      (.list [some "AI", some " ai "])).1 =
      some ("science and ai", ["ai", "ai"]) ∧
    get_setting (finalize_profile [] "t0" (some "science and ai")
      (.list [some "AI", some " ai "])).2 "user_interest_tags" =
      some "[\"ai\", \"ai\"]" ∧
    ¬ (["ai", "ai"] : List String).Nodup := by
  refine ⟨by decide, by decide, by decide⟩

/-- C9 amended: on success the persisted tag list equals the LLM tags
lowercased and trimmed with empty and non-string entries removed
(duplicates are retained), and the profile text, the updated-at value and
the cleared stale flag are persisted alongside it. -/
theorem profile_persistence_amended (settings : List (String × String))
    (nowIso : String) (pf : Option String) (tf : TagsField)
    (h : pyTruthyStr (pyStripS (pf.getD "")) = true) :
    (finalize_profile settings nowIso pf tf).1 =
      some (pyStripS (pf.getD ""), normalize_profile_tags tf) ∧
    get_setting (finalize_profile settings nowIso pf tf).2
      "user_interest_profile" = some (pyStripS (pf.getD "")) ∧
    get_setting (finalize_profile settings nowIso pf tf).2
      "user_interest_tags" =
      some (jsonDumpStrList (normalize_profile_tags tf)) ∧
    get_setting (finalize_profile settings nowIso pf tf).2
      "user_profile_updated_at" = some nowIso ∧
    get_setting (finalize_profile settings nowIso pf tf).2
      "user_profile_stale" = some "0" := by
  have hcond : ¬ (¬ pyTruthyStr (pyStripS (pf.getD "")) = true) := by
    simp [h]
  unfold finalize_profile
  dsimp only
  rw [if_neg hcond]
  refine ⟨rfl, ?_, ?_, ?_, ?_⟩
  · rw [get_set_setting_ne _ _ _ _ (by decide),
        get_set_setting_ne _ _ _ _ (by decide),
        get_set_setting_ne _ _ _ _ (by decide), get_set_setting_same]
  · rw [get_set_setting_ne _ _ _ _ (by decide),
        get_set_setting_ne _ _ _ _ (by decide), get_set_setting_same]
  · rw [get_set_setting_ne _ _ _ _ (by decide), get_set_setting_same]
  · rw [get_set_setting_same]

/-- Witness for C9 amended at a concrete profile and tag list. -/
theorem profile_persistence_amended_witness :
    (finalize_profile [] "t1" (some "p") (.list [some "AI"])).1 =
      some ("p", ["ai"]) ∧
    get_setting (finalize_profile [] "t1" (some "p")
      (.list [some "AI"])).2 "user_interest_tags" = some "[\"ai\"]" ∧
    get_setting (finalize_profile [] "t1" (some "p")
      (.list [some "AI"])).2 "user_profile_stale" = some "0" := by
  have h := profile_persistence_amended [] "t1" (some "p")
    (.list [some "AI"]) (by decide)
  refine ⟨?_, ?_, ?_⟩
  · have := h.1
    simpa using this
  · have := h.2.2.1
    simpa using this
  · exact h.2.2.2.2

theorem process_entry_hash (clean : String → String) (feed : FeedRec)
    (posts : List IngPost) (entry : IngEntry) (now : ℚ) (post : IngPost)
    (feed' : FeedRec)
    (h : process_entry clean feed posts entry now = .ok (some post, feed')) :
    post.content_hash =
      compute_content_hash entry.content entry.title entry.url := by
  unfold process_entry at h
  cases hn : normalize_url entry.url with
  | error e =>
    rw [hn] at h
    simp at h
  | ok nu =>
    rw [hn] at h
    dsimp only at h
    repeat' split at h
    all_goals
      simp only [Except.ok.injEq, Prod.mk.injEq, Option.some.injEq] at h
    all_goals
      first
      | exact absurd h.1 (by simp)
      | rw [← h.1]

/-- C10: compute_content_hash returns None not only for empty content
but whenever the extracted text is empty or the normalized combination of
title, URL and text is empty — tag-only HTML, whitespace-only and
boilerplate-only content included — and consequently the ingestor,
facing an entry with a None hash, adds no summary-queue row and any post
it inserts carries a None content_hash. -/
theorem content_hash_null_for_empty_text :
    (∀ (c : String) (t u : Option String),
      extract_text (some c) = none →
      compute_content_hash (some c) t u = none) ∧
    (∀ (c text : String) (t u : Option String),
      extract_text (some c) = some text →
      normalize_for_hash (String.intercalate "\n"
        (([t, u, some text].filterMap id).filter (fun p => p ≠ ""))) = "" →
      compute_content_hash (some c) t u = none) ∧
    compute_content_hash (some "<div><br/></div>") (some "Title")
      (some "http://x") = none ∧
    compute_content_hash (some "   ") none none = none ∧
    compute_content_hash (some "share") none none = none ∧
    (∀ (clean : String → String) (now : ℚ) (s : IngestState)
        (entry : IngEntry),
      compute_content_hash entry.content entry.title entry.url = none →
      (ingest_entry clean now s entry).queue = s.queue ∧
      ((ingest_entry clean now s entry).posts = s.posts ∨
       ∃ post, (ingest_entry clean now s entry).posts = s.posts ++ [post] ∧
         post.content_hash = none)) := by
  refine ⟨?_, ?_, by decide, by decide, by decide, ?_⟩
  · intro c t u hext
    simp only [compute_content_hash]
    split
    · rfl
    · rw [hext]
  · intro c text t u hext hnorm
    simp only [compute_content_hash]
    split
    · rfl
    · rw [hext]
      dsimp only
      rw [hnorm]
      simp
  · intro clean now s entry hhash
    cases hp : process_entry clean s.feed s.posts entry now with
    | error e =>
      unfold ingest_entry
      rw [hp]
      exact ⟨rfl, Or.inl rfl⟩
    | ok pr =>
      obtain ⟨op, feed'⟩ := pr
      cases op with
      | none =>
        unfold ingest_entry
        rw [hp]
        exact ⟨rfl, Or.inl rfl⟩
      | some post =>
        have hch : post.content_hash = none :=
          (process_entry_hash clean s.feed s.posts entry now post feed'
            hp).trans hhash
        unfold ingest_entry
        rw [hp]
        dsimp only
        have hfalse :
            pyTruthyOptStr ({ post with id := s.next_post_id }).content_hash
              = false := by
          show pyTruthyOptStr post.content_hash = false
          rw [hch]
          rfl
        rw [if_neg (by simp [hfalse])]
        exact ⟨rfl, Or.inr ⟨{ post with id := s.next_post_id }, rfl, hch⟩⟩

/-- Witness for C10: the boilerplate-only entry gets a None hash and its
ingestion adds no queue row while inserting the post with a None hash. -/
theorem content_hash_null_for_empty_text_witness :
    compute_content_hash (some "share") none none = none ∧
    (ingest_entry id 0 shareState0 shareEntry).queue = shareState0.queue ∧
    ((ingest_entry id 0 shareState0 shareEntry).posts = shareState0.posts ∨
     ∃ post, (ingest_entry id 0 shareState0 shareEntry).posts =
         shareState0.posts ++ [post] ∧ post.content_hash = none) := by
  refine ⟨?_, ?_, ?_⟩
  · exact content_hash_null_for_empty_text.2.1 "share" "share" none none
      (by decide) (by decide)
  · exact (content_hash_null_for_empty_text.2.2.2.2.2 id 0 shareState0
      shareEntry (by decide)).1
  · exact (content_hash_null_for_empty_text.2.2.2.2.2 id 0 shareState0
      shareEntry (by decide)).2

end Risos
